import Mathlib

/-!
Shallow embedding of the core of the HoraeDB repository:

* the WAL replay subsystem, `src/analytic_engine/src/instance/wal_replayer.rs`
  (`RegionBasedReplay::split_log_batch_by_table`, `replay_table_log_entries`,
  `TableBasedReplay::run`, `RegionBasedReplay::replay_single_batch`,
  `RegionBasedReplay::replay_region_logs`);
* the cluster shard lifecycle, `src/cluster/src/cluster_impl.rs`
  (`Inner::open_shard`, `ClusterImpl::shard_lock_key_prefix`);
* the cluster configuration, `src/cluster/src/config.rs`
  (`EtcdClientConfig::validate`).

External collaborators (the WAL iterator, the memtable writer, the flush
scheduler, the meta client) are modelled as oracle parameters; everything
else is translated from the Rust source.
-/

namespace HoraeDB

/-- A WAL log entry, `wal::log_batch::LogEntry`: `(table_id, sequence, payload)`.
`table_id` and `sequence` are `u64` values; replay never performs arithmetic on
them (only comparisons), so they are modelled as `Nat`. -/
structure LogEntry (P : Type) where
  table_id : Nat
  sequence : Nat
  payload : P
deriving Repr, DecidableEq

/-! ### `RegionBasedReplay::split_log_batch_by_table` (wal_replayer.rs, lines 435-488)

The Rust function walks the batch with indices `start_log_idx` / `curr_log_idx`
and accumulates `HashMap<TableId, Vec<Range<usize>>>`; the half-open range
`start..curr` is pushed into the map each time the table id changes and once
at the end.  The `HashMap` is modelled as an association list keyed by table
id (`pushRange` mirrors `entry(..).or_insert(Vec::new()).push(range)`); the
final `Vec<TableBatch>` of the Rust code is produced in unspecified hash
order, so all statements about the result go through the per-key lookup
`lookupRanges`, never through the order of the list.  The index walk is
rendered as structural recursion over the not-yet-visited suffix of the
batch, with `curr_log_idx` carried as a counter, which is exactly the Rust
loop: at each iteration the element inspected by `log_batch.get(curr_log_idx)`
is the head of that suffix. -/

/-- One entry of the `table_ranges` map: half-open index ranges, as
`(start, stop)` pairs, of one table. `pushRange m tid r` is
`table_ranges.entry(tid).or_insert(Vec::new()).push(r)`. -/
def pushRange (m : List (Nat × List (Nat × Nat))) (tid : Nat) (r : Nat × Nat) :
    List (Nat × List (Nat × Nat)) :=
  match m with
  | [] => [(tid, [r])]
  | (k, rs) :: rest =>
    if k = tid then (k, rs ++ [r]) :: rest
    else (k, rs) :: pushRange rest tid r

/-- The loop of `split_log_batch_by_table`.  `rem` is the suffix of the batch
starting at index `curr_log_idx`; when it is empty, `time_to_break` holds and
the final range is pushed.  When the head's table id differs from
`start_table_id` (`found_end_idx`), the accumulated range is pushed and a new
segment starts at `curr_log_idx`. -/
def splitGo {P : Type} :
    List (LogEntry P) → Nat → Nat → Nat → List (Nat × List (Nat × Nat)) →
    List (Nat × List (Nat × Nat))
  | [], start_log_idx, curr_log_idx, start_table_id, table_ranges =>
    pushRange table_ranges start_table_id (start_log_idx, curr_log_idx)
  | e :: rest, start_log_idx, curr_log_idx, start_table_id, table_ranges =>
    if e.table_id ≠ start_table_id then
      splitGo rest curr_log_idx (curr_log_idx + 1) e.table_id
        (pushRange table_ranges start_table_id (start_log_idx, curr_log_idx))
    else
      splitGo rest start_log_idx (curr_log_idx + 1) start_table_id table_ranges

/-- `RegionBasedReplay::split_log_batch_by_table`: empty input produces no
table batch, otherwise the index walk starts at 0 with the first entry's
table id. -/
def split_log_batch_by_table {P : Type} (log_batch : List (LogEntry P)) :
    List (Nat × List (Nat × Nat)) :=
  match log_batch with
  | [] => []
  | e :: _ => splitGo log_batch 0 0 e.table_id []

/-- The indices covered by one half-open range `(start, stop)`, in order:
`start, start+1, ..., stop-1`. -/
def rangeIdxs (r : Nat × Nat) : List Nat :=
  (List.range (r.2 - r.1)).map (· + r.1)

/-- The indices covered by a list of ranges, concatenated in order. -/
def coveredIdxs (rs : List (Nat × Nat)) : List Nat :=
  match rs with
  | [] => []
  | r :: rest => rangeIdxs r ++ coveredIdxs rest

/-- Ranges recorded for table `t` in the split result (empty when absent). -/
def lookupRanges (m : List (Nat × List (Nat × Nat))) (t : Nat) : List (Nat × Nat) :=
  match m with
  | [] => []
  | (k, rs) :: rest => if k = t then rs else lookupRanges rest t

/-- The positions (offset by `curr`) of the entries of table `t` in a batch
suffix, in original order. -/
def entryIdxsFrom {P : Type} (t : Nat) (curr : Nat) : List (LogEntry P) → List Nat
  | [] => []
  | e :: rest =>
    (if e.table_id = t then [curr] else []) ++ entryIdxsFrom t (curr + 1) rest

/-- The positions of the entries of table `t` in a batch, in original order. -/
def entryIdxs {P : Type} (log_batch : List (LogEntry P)) (t : Nat) : List Nat :=
  entryIdxsFrom t 0 log_batch

/-! ### `EtcdClientConfig::validate` (config.rs, lines 84-101) -/

/-- `MIN_SHARD_LOCK_LEASE_TTL_SEC` (config.rs, line 46). -/
def MIN_SHARD_LOCK_LEASE_TTL_SEC : Nat := 15

/-- Nanoseconds per second; `Duration::from_secs` comparisons are carried out
at nanosecond precision. -/
def NANOS_PER_SEC : Nat := 1000000000

/-- The fields of `EtcdClientConfig` that `validate` inspects.
`shard_lock_lease_check_interval` is a `ReadableDuration` (a `Duration`),
modelled as a nanosecond count. -/
structure EtcdClientConfig where
  shard_lock_lease_ttl_sec : Nat
  shard_lock_lease_check_interval_ns : Nat
deriving Repr, DecidableEq

/-- `EtcdClientConfig::validate`: rejects a lease TTL below
`MIN_SHARD_LOCK_LEASE_TTL_SEC`, then rejects a check interval that is not
strictly below `Duration::from_secs(shard_lock_lease_ttl_sec)`. -/
def EtcdClientConfig.validate (c : EtcdClientConfig) : Except String Unit :=
  if c.shard_lock_lease_ttl_sec < MIN_SHARD_LOCK_LEASE_TTL_SEC then
    .error "shard_lock_lease_ttl_sec should be greater than the minimum"
  else if c.shard_lock_lease_check_interval_ns ≥
      c.shard_lock_lease_ttl_sec * NANOS_PER_SEC then
    .error "shard_lock_lease_check_interval should be less than shard_lock_lease_ttl_sec"
  else
    .ok ()

/-! ### `ClusterImpl::shard_lock_key_prefix` (cluster_impl.rs, lines 167-184) -/

/-- The error kinds of `cluster::Error` that the embedded operations produce. -/
inductive ClusterError where
  | invalidArguments (msg : String)
  | openShard (shard_id : Nat) (msg : String)
  | openShardWithCause (msg : String)
deriving Repr, DecidableEq

/-- `ClusterImpl::shard_lock_key_prefix`: requires `root_path` to start with
the character `/` and `cluster_name` to be non-empty, then formats
`{root_path}/{cluster_name}/shards` (`SHARD_LOCK_KEY = "shards"`). -/
def shard_lock_key_prefix (root_path cluster_name : String) :
    Except ClusterError String :=
  if root_path.data.head? ≠ some '/' then
    .error (.invalidArguments "root_path is required to start with /")
  else if cluster_name = "" then
    .error (.invalidArguments "cluster_name is required non-empty")
  else
    .ok (root_path ++ "/" ++ cluster_name ++ "/" ++ "shards")

/-! ### Lemmas about the splitter -/

theorem lookupRanges_pushRange_self (m : List (Nat × List (Nat × Nat))) (tid : Nat)
    (r : Nat × Nat) : lookupRanges (pushRange m tid r) tid = lookupRanges m tid ++ [r] := by
  induction m with
  | nil => simp [pushRange, lookupRanges]
  | cons hd rest ih =>
    obtain ⟨k, rs⟩ := hd
    by_cases hk : k = tid
    · simp [pushRange, lookupRanges, hk]
    · simp [pushRange, lookupRanges, hk, ih]

theorem lookupRanges_pushRange_other (m : List (Nat × List (Nat × Nat))) (tid t : Nat)
    (r : Nat × Nat) (h : t ≠ tid) :
    lookupRanges (pushRange m tid r) t = lookupRanges m t := by
  induction m with
  | nil => simp [pushRange, lookupRanges, Ne.symm h]
  | cons hd rest ih =>
    obtain ⟨k, rs⟩ := hd
    by_cases hk : k = tid
    · subst hk
      simp [pushRange, lookupRanges, Ne.symm h]
    · simp [pushRange, lookupRanges, hk, ih]

theorem coveredIdxs_append (a b : List (Nat × Nat)) :
    coveredIdxs (a ++ b) = coveredIdxs a ++ coveredIdxs b := by
  induction a with
  | nil => simp [coveredIdxs]
  | cons r rest ih => simp [coveredIdxs, ih]

theorem coveredIdxs_pushRange (m : List (Nat × List (Nat × Nat))) (tid t : Nat)
    (r : Nat × Nat) :
    coveredIdxs (lookupRanges (pushRange m tid r) t) =
      coveredIdxs (lookupRanges m t) ++ (if t = tid then rangeIdxs r else []) := by
  by_cases h : t = tid
  · subst h
    simp [lookupRanges_pushRange_self, coveredIdxs_append, coveredIdxs]
  · simp [lookupRanges_pushRange_other m tid t r h, h]

theorem rangeIdxs_snoc (s c : Nat) (h : s ≤ c) :
    rangeIdxs (s, c + 1) = rangeIdxs (s, c) ++ [c] := by
  have h1 : c + 1 - s = (c - s) + 1 := by omega
  have h2 : (c - s) + s = c := by omega
  simp [rangeIdxs, h1, List.range_succ, h2]

theorem rangeIdxs_refl (s : Nat) : rangeIdxs (s, s) = [] := by
  simp [rangeIdxs]

theorem rangeIdxs_one (c : Nat) : rangeIdxs (c, c + 1) = [c] := by
  simp [rangeIdxs, List.range_succ]

/-- Invariant of the splitter loop: the indices covered for table `t` by the
result are those already recorded in `table_ranges`, followed by the
currently open segment when it belongs to `t`, followed by the positions of
the `t`-entries in the unvisited suffix. -/
theorem splitGo_covered {P : Type} (t : Nat) (rem : List (LogEntry P)) :
    ∀ (start curr st : Nat) (m : List (Nat × List (Nat × Nat))), start ≤ curr →
    coveredIdxs (lookupRanges (splitGo rem start curr st m) t) =
      coveredIdxs (lookupRanges m t) ++
        (if t = st then rangeIdxs (start, curr) else []) ++
        entryIdxsFrom t curr rem := by
  induction rem with
  | nil =>
    intro start curr st m _
    simp [splitGo, entryIdxsFrom, coveredIdxs_pushRange]
  | cons e rest ih =>
    intro start curr st m hsc
    by_cases hne : e.table_id ≠ st
    · rw [splitGo, if_pos hne, ih curr (curr + 1) e.table_id _ (Nat.le_succ curr),
        coveredIdxs_pushRange]
      simp only [entryIdxsFrom, rangeIdxs_one]
      by_cases ht : t = e.table_id
      · simp [ht, List.append_assoc]
      · simp [ht, Ne.symm ht, List.append_assoc]
    · push_neg at hne
      rw [splitGo, if_neg (by simp [hne]), ih start (curr + 1) st m (Nat.le_succ_of_le hsc)]
      simp only [entryIdxsFrom, hne]
      by_cases ht : t = st
      · simp [ht, rangeIdxs_snoc start curr hsc, List.append_assoc]
      · simp [ht, Ne.symm ht]

/-- When every remaining entry has table id `st`, the splitter loop never
closes the segment early and pushes the single range
`(start, curr + rem.length)`. -/
theorem splitGo_const {P : Type} (st : Nat) (rem : List (LogEntry P)) :
    ∀ (start curr : Nat) (m : List (Nat × List (Nat × Nat))),
    (∀ e ∈ rem, e.table_id = st) →
    splitGo rem start curr st m = pushRange m st (start, curr + rem.length) := by
  induction rem with
  | nil => intro start curr m _; simp [splitGo]
  | cons e rest ih =>
    intro start curr m hall
    have he : e.table_id = st := hall e (List.mem_cons_self e rest)
    rw [splitGo, if_neg (by simp [he]),
      ih start (curr + 1) m (fun x hx => hall x (List.mem_cons_of_mem e hx))]
    have : curr + 1 + rest.length = curr + (e :: rest).length := by
      simp [List.length_cons]; omega
    rw [this]

/-- The example batch of the specification:
table ids `[1,1,2,2,2,3,3,3,3,1,1]`. -/
def exampleSplitBatch : List (LogEntry Unit) :=
  [⟨1, 0, ()⟩, ⟨1, 1, ()⟩, ⟨2, 0, ()⟩, ⟨2, 1, ()⟩, ⟨2, 2, ()⟩,
   ⟨3, 0, ()⟩, ⟨3, 1, ()⟩, ⟨3, 2, ()⟩, ⟨3, 3, ()⟩, ⟨1, 2, ()⟩, ⟨1, 3, ()⟩]

/-- Claim C1: for every finite batch of log entries,
`split_log_batch_by_table` produces table batches whose ranges, concatenated
per table id, exactly cover every entry of that table id in original order;
the empty batch yields no table batch; a single-table batch yields one range
covering the whole batch; and the batch with table ids
`[1,1,2,2,2,3,3,3,3,1,1]` yields table 1 with ranges `[0..2, 9..11]`,
table 2 with `[2..5]` and table 3 with `[5..9]`. -/
theorem claim_C1_split_correctness :
    (∀ (P : Type) (log_batch : List (LogEntry P)) (t : Nat),
        coveredIdxs (lookupRanges (split_log_batch_by_table log_batch) t) =
          entryIdxs log_batch t)
    ∧ (∀ (P : Type), split_log_batch_by_table ([] : List (LogEntry P)) = [])
    ∧ (∀ (P : Type) (t : Nat) (log_batch : List (LogEntry P)),
        log_batch ≠ [] → (∀ e ∈ log_batch, e.table_id = t) →
        split_log_batch_by_table log_batch = [(t, [(0, log_batch.length)])])
    ∧ lookupRanges (split_log_batch_by_table exampleSplitBatch) 1 = [(0, 2), (9, 11)]
    ∧ lookupRanges (split_log_batch_by_table exampleSplitBatch) 2 = [(2, 5)]
    ∧ lookupRanges (split_log_batch_by_table exampleSplitBatch) 3 = [(5, 9)] := by
  refine ⟨?_, ?_, ?_, by decide, by decide, by decide⟩
  · intro P log_batch t
    cases log_batch with
    | nil => simp [split_log_batch_by_table, lookupRanges, coveredIdxs, entryIdxs, entryIdxsFrom]
    | cons e rest =>
      rw [split_log_batch_by_table, splitGo_covered t (e :: rest) 0 0 e.table_id [] le_rfl]
      simp [lookupRanges, coveredIdxs, rangeIdxs, entryIdxs]
  · intro P
    rfl
  · intro P t log_batch hne hall
    cases log_batch with
    | nil => exact absurd rfl hne
    | cons e rest =>
      have he : e.table_id = t := hall e (List.mem_cons_self e rest)
      rw [split_log_batch_by_table, he, splitGo_const t (e :: rest) 0 0 [] hall]
      simp [pushRange]

/-- Witness for claim C1: the single-table part applied to a concrete
two-entry batch of table 7. -/
theorem claim_C1_witness :
    split_log_batch_by_table [(⟨7, 0, ()⟩ : LogEntry Unit), ⟨7, 1, ()⟩] =
      [(7, [(0, 2)])] :=
  claim_C1_split_correctness.2.2.1 Unit 7 [⟨7, 0, ()⟩, ⟨7, 1, ()⟩]
    (by decide) (by decide)

/-- Claim C9: `EtcdClientConfig::validate` returns an error exactly when the
lease TTL is below 15 seconds or the check interval is not strictly less
than the lease TTL; a TTL of exactly 15 with a smaller check interval
(200 ms) is accepted. -/
theorem claim_C9_etcd_validate :
    (∀ c : EtcdClientConfig,
      (∃ msg, c.validate = .error msg) ↔
        (c.shard_lock_lease_ttl_sec < 15 ∨
         c.shard_lock_lease_check_interval_ns ≥
           c.shard_lock_lease_ttl_sec * NANOS_PER_SEC))
    ∧ EtcdClientConfig.validate ⟨15, 200000000⟩ = .ok () := by
  refine ⟨fun c => ?_, rfl⟩
  unfold EtcdClientConfig.validate MIN_SHARD_LOCK_LEASE_TTL_SEC
  constructor
  · rintro ⟨msg, hmsg⟩
    by_cases h1 : c.shard_lock_lease_ttl_sec < 15
    · exact Or.inl h1
    · by_cases h2 : c.shard_lock_lease_check_interval_ns ≥
          c.shard_lock_lease_ttl_sec * NANOS_PER_SEC
      · exact Or.inr h2
      · rw [if_neg h1, if_neg h2] at hmsg
        exact absurd hmsg (by simp)
  · intro h
    by_cases h1 : c.shard_lock_lease_ttl_sec < 15
    · exact ⟨_, by rw [if_pos h1]⟩
    · have h2 : c.shard_lock_lease_check_interval_ns ≥
          c.shard_lock_lease_ttl_sec * NANOS_PER_SEC := by
        rcases h with h | h
        · exact absurd h h1
        · exact h
      exact ⟨_, by rw [if_neg h1, if_pos h2]⟩

/-- Claim C8: `shard_lock_key_prefix(root_path, cluster_name)` returns
`"<root_path>/<cluster_name>/shards"` when `root_path` starts with `/` and
`cluster_name` is non-empty, and an `InvalidArguments` error otherwise; in
particular `("/horaedb", "defaultCluster")` yields
`"/horaedb/defaultCluster/shards"`, while root `""` or `"vvv"`, or cluster
`""`, are rejected. -/
theorem claim_C8_shard_lock_key :
    (∀ root_path cluster_name : String,
        root_path.data.head? = some '/' → cluster_name ≠ "" →
        shard_lock_key_prefix root_path cluster_name =
          .ok (root_path ++ "/" ++ cluster_name ++ "/" ++ "shards"))
    ∧ (∀ root_path cluster_name : String,
        root_path.data.head? ≠ some '/' ∨ cluster_name = "" →
        ∃ msg, shard_lock_key_prefix root_path cluster_name =
          .error (.invalidArguments msg))
    ∧ shard_lock_key_prefix "/horaedb" "defaultCluster" =
        .ok "/horaedb/defaultCluster/shards"
    ∧ (∃ m1, shard_lock_key_prefix "" "defaultCluster" =
        .error (.invalidArguments m1))
    ∧ (∃ m2, shard_lock_key_prefix "vvv" "defaultCluster" =
        .error (.invalidArguments m2))
    ∧ (∃ m3, shard_lock_key_prefix "/x" "" = .error (.invalidArguments m3)) := by
  refine ⟨?_, ?_, rfl, ⟨_, rfl⟩, ⟨_, rfl⟩, ⟨_, rfl⟩⟩
  · intro root_path cluster_name h1 h2
    unfold shard_lock_key_prefix
    rw [if_neg (by simp [h1]), if_neg h2]
  · intro root_path cluster_name h
    unfold shard_lock_key_prefix
    by_cases h1 : root_path.data.head? = some '/'
    · have h2 : cluster_name = "" := by
        rcases h with h | h
        · exact absurd h1 h
        · exact h
      exact ⟨_, by rw [if_neg (by simp [h1]), if_pos h2]⟩
    · exact ⟨_, by rw [if_pos (by simp [h1])]⟩

/-- Witness for claim C8: the success part applied to the spec's example
arguments. -/
theorem claim_C8_witness :
    shard_lock_key_prefix "/horaedb" "defaultCluster" =
      .ok ("/horaedb" ++ "/" ++ "defaultCluster" ++ "/" ++ "shards") :=
  claim_C8_shard_lock_key.1 "/horaedb" "defaultCluster" (by decide) (by decide)

/-! ### `replay_table_log_entries` (wal_replayer.rs, lines 502-615)

The function iterates over the log entries of one table and mutates the
table's in-memory state.  The table state (`TableDataRef`) is a record; the
external collaborators are oracles keyed by the entry's sequence number:

* `write_outcome` — the result of `MemTableWriter::write` (line 561);
* `is_in_flush`  — `serial_exec.flush_scheduler().is_in_flush()` (line 579);
* `should_flush_table` — `table_data.should_flush_table(in_flush)` (line 580);
* `schedule_flush_ok` — whether `flusher.schedule_flush` succeeds (line 586).

Besides the final state and the `Result`, the embedding returns the ordered
list of externally observable events of the run (insert attempts, flush
predicate evaluations, scheduled flushes, `set_last_sequence` calls). -/

/-- A write payload's row group: its schema version and its rows (rows are
opaque to replay and modelled as `Nat`). -/
structure RowGroup where
  schema_version : Nat
  rows : List Nat
deriving Repr, DecidableEq

/-- `payload::ReadPayload`: a write, or one of the two DDL variants that
replay skips. -/
inductive ReadPayload where
  | write (row_group : RowGroup)
  | alterSchema
  | alterOptions
deriving Repr, DecidableEq

/-- The slice of `TableData` that `replay_table_log_entries` reads and
writes.  `flushed_sequence` is `current_version().flushed_sequence()`,
`memtable` records the successful `MemTableWriter::write` calls as
`(sequence, row_group)` pairs in order. -/
structure TableData where
  id : Nat
  name : String
  space_id : Nat
  schema_version : Nat
  flushed_sequence : Nat
  last_sequence : Nat
  memtable : List (Nat × RowGroup)
deriving Repr, DecidableEq

/-- `TableFlushOptions` (flush_compaction.rs): the result channel is opaque,
only its presence matters. -/
structure TableFlushOptions where
  res_sender : Option Nat
  max_retry_flush_limit : Nat
deriving Repr, DecidableEq

/-- Classification of a `MemTableWriter::write` result, as tested at
wal_replayer.rs line 563: success, the specially ignored
`UpdateMemTableSequence` error whose source kind is `KeyTooLarge`,
or any other error. -/
inductive WriteOutcome where
  | ok
  | keyTooLarge
  | otherErr
deriving Repr, DecidableEq

/-- Oracles for the external collaborators of `replay_table_log_entries`,
keyed by the sequence number of the entry being applied (per-table WAL
sequences are distinct). -/
structure ReplayEnv where
  write_outcome : Nat → RowGroup → WriteOutcome
  is_in_flush : Nat → Bool
  should_flush_table : Nat → Bool → Bool
  schedule_flush_ok : Nat → Bool

/-- Externally observable events of a replay run, in order. -/
inductive ReplayEvent where
  | insertAttempt (sequence : Nat) (outcome : WriteOutcome)
  | flushEval (sequence : Nat) (in_flush : Bool) (result : Bool)
  | flushScheduled (sequence : Nat) (opts : TableFlushOptions) (ok : Bool)
  | lastSeqSet (sequence : Nat)
deriving Repr, DecidableEq

/-- `instance::engine::Error::ReplayWalWithCause`, with the table context
carried by its message (wal_replayer.rs lines 568-574 and 590-595 format
`table_data.space_id`, `table_data.name`, `table_data.id` into the message). -/
inductive ReplayError where
  | replayWalWithCause (space_id : Nat) (table_name : String) (table_id : Nat)
deriving Repr, DecidableEq

/-- The `for log_entry in log_entries` loop of `replay_table_log_entries`.
`flushed_sequence` was read once before the loop (line 510).  Returns the
final table state, the event trace, and `some` error iff the loop aborted
(in which case the remaining entries are not visited). -/
def replayGo (env : ReplayEnv) (max_retry_flush_limit : Nat)
    (flushed_sequence : Nat) (td : TableData) :
    List (LogEntry ReadPayload) →
    TableData × List ReplayEvent × Option ReplayError
  | [] => (td, [], none)
  | e :: rest =>
    -- Ignore too old logs (sequence <= `flushed_sequence`), line 520.
    if e.sequence ≤ flushed_sequence then
      replayGo env max_retry_flush_limit flushed_sequence td rest
    else
      match e.payload with
      | .write row_group =>
        -- Ignore data with mismatched schema version, lines 535-556.
        if td.schema_version ≠ row_group.schema_version then
          replayGo env max_retry_flush_limit flushed_sequence td rest
        else
          let outcome := env.write_outcome e.sequence row_group
          if outcome = .otherErr then
            -- Line 567-575: wrap with table context and return.
            (td, [.insertAttempt e.sequence outcome],
             some (.replayWalWithCause td.space_id td.name td.id))
          else
            -- Success inserts the rows; `KeyTooLarge` is only logged.
            let td1 := if outcome = .ok then
                { td with memtable := td.memtable ++ [(e.sequence, row_group)] }
              else td
            -- Flush the table if necessary, lines 578-596.
            let in_flush := env.is_in_flush e.sequence
            let sf := env.should_flush_table e.sequence in_flush
            let evs := [ReplayEvent.insertAttempt e.sequence outcome,
                        ReplayEvent.flushEval e.sequence in_flush sf]
            if sf then
              let opts : TableFlushOptions :=
                { res_sender := none, max_retry_flush_limit := max_retry_flush_limit }
              if env.schedule_flush_ok e.sequence then
                let td2 := { td1 with last_sequence := e.sequence }
                let r := replayGo env max_retry_flush_limit flushed_sequence td2 rest
                (r.1,
                 evs ++ [.flushScheduled e.sequence opts true, .lastSeqSet e.sequence]
                     ++ r.2.1,
                 r.2.2)
              else
                (td1, evs ++ [.flushScheduled e.sequence opts false],
                 some (.replayWalWithCause td.space_id td.name td.id))
            else
              let td2 := { td1 with last_sequence := e.sequence }
              let r := replayGo env max_retry_flush_limit flushed_sequence td2 rest
              (r.1, evs ++ [.lastSeqSet e.sequence] ++ r.2.1, r.2.2)
      | .alterSchema =>
        -- Ignore records except Data, lines 598-603; line 606 still runs.
        let td2 := { td with last_sequence := e.sequence }
        let r := replayGo env max_retry_flush_limit flushed_sequence td2 rest
        (r.1, .lastSeqSet e.sequence :: r.2.1, r.2.2)
      | .alterOptions =>
        let td2 := { td with last_sequence := e.sequence }
        let r := replayGo env max_retry_flush_limit flushed_sequence td2 rest
        (r.1, .lastSeqSet e.sequence :: r.2.1, r.2.2)

/-- `replay_table_log_entries`: reads `flushed_sequence` once, then runs the
loop. -/
def replay_table_log_entries (env : ReplayEnv) (max_retry_flush_limit : Nat)
    (td : TableData) (log_entries : List (LogEntry ReadPayload)) :
    TableData × List ReplayEvent × Option ReplayError :=
  replayGo env max_retry_flush_limit td.flushed_sequence td log_entries

/-! ### Concrete replay scenarios used by the claims -/

/-- Oracles for a well-behaved run: every insert succeeds, no flush is ever
wanted, scheduling (never reached) would succeed. -/
def replayEnvOk : ReplayEnv :=
  { write_outcome := fun _ _ => .ok
    is_in_flush := fun _ => false
    should_flush_table := fun _ _ => false
    schedule_flush_ok := fun _ => true }

/-- A row group with schema version 3 and a single row `n`. -/
def rowsAt (n : Nat) : RowGroup := { schema_version := 3, rows := [n] }

/-- The spec's old-log-skip table: `flushed_sequence = 100`. -/
def tdScenario : TableData :=
  { id := 1, name := "t", space_id := 0, schema_version := 3,
    flushed_sequence := 100, last_sequence := 0, memtable := [] }

/-- WAL entries at sequences 50, 101, 102 for the old-log-skip scenario. -/
def scenarioEntries : List (LogEntry ReadPayload) :=
  [⟨1, 50, .write (rowsAt 50)⟩, ⟨1, 101, .write (rowsAt 101)⟩,
   ⟨1, 102, .write (rowsAt 102)⟩]

/-- A fresh table (nothing flushed, nothing applied), schema version 0. -/
def tdZero : TableData :=
  { id := 2, name := "d", space_id := 0, schema_version := 0,
    flushed_sequence := 0, last_sequence := 0, memtable := [] }

/-- A fresh table with schema version 3 (matching `rowsAt`). -/
def tdK : TableData :=
  { id := 2, name := "d", space_id := 0, schema_version := 3,
    flushed_sequence := 0, last_sequence := 0, memtable := [] }

/-- Oracles where every insert fails with `KeyTooLarge`, the flush predicate
then asks for a flush, and flush scheduling fails. -/
def envAbortFlush : ReplayEnv :=
  { write_outcome := fun _ _ => .keyTooLarge
    is_in_flush := fun _ => false
    should_flush_table := fun _ _ => true
    schedule_flush_ok := fun _ => false }

/-- Oracles where every insert fails with `KeyTooLarge` and no flush is
wanted. -/
def envDropNoFlush : ReplayEnv :=
  { write_outcome := fun _ _ => .keyTooLarge
    is_in_flush := fun _ => false
    should_flush_table := fun _ _ => false
    schedule_flush_ok := fun _ => true }

/-- Claim C2: an entry whose sequence is at most the `flushed_sequence` read
at the start of apply is skipped entirely — the loop iteration leaves the
state, the event trace and the result exactly as if the entry were absent;
and in the concrete scenario (`flushed_sequence = 100`, WAL entries at
sequences 50, 101, 102) replay ends with `last_sequence = 102`, a memtable
holding only the rows of 101 and 102, and no error. -/
theorem claim_C2_old_log_skip :
    (∀ (env : ReplayEnv) (limit flushed : Nat) (td : TableData)
        (e : LogEntry ReadPayload) (rest : List (LogEntry ReadPayload)),
        e.sequence ≤ flushed →
        replayGo env limit flushed td (e :: rest) =
          replayGo env limit flushed td rest)
    ∧ (replay_table_log_entries replayEnvOk 8 tdScenario scenarioEntries).1.last_sequence
        = 102
    ∧ (replay_table_log_entries replayEnvOk 8 tdScenario scenarioEntries).1.memtable
        = [(101, rowsAt 101), (102, rowsAt 102)]
    ∧ (replay_table_log_entries replayEnvOk 8 tdScenario scenarioEntries).2.2 = none := by
  refine ⟨?_, by decide, by decide, by decide⟩
  intro env limit flushed td e rest h
  simp [replayGo, h]

/-- Witness for claim C2: the skip equation applied to the too-old entry of
the concrete scenario. -/
theorem claim_C2_witness :
    replayGo replayEnvOk 8 100 tdScenario [⟨1, 50, .write (rowsAt 50)⟩] =
      replayGo replayEnvOk 8 100 tdScenario [] :=
  claim_C2_old_log_skip.1 replayEnvOk 8 100 tdScenario
    ⟨1, 50, .write (rowsAt 50)⟩ [] (by decide)

/-- Counterexample to claim C4: a DDL entry (sequence 5, `AlterSchema`) is
skipped by the payload match, yet `set_last_sequence(5)` still runs
(wal_replayer.rs line 606): `last_sequence` moves from 0 to 5 although no
memtable insert happened and no error occurred. -/
theorem claim_C4_counterexample :
    (replay_table_log_entries replayEnvOk 8 tdZero [⟨2, 5, .alterSchema⟩]).1.last_sequence = 5
    ∧ tdZero.last_sequence = 0
    ∧ (replay_table_log_entries replayEnvOk 8 tdZero [⟨2, 5, .alterSchema⟩]).1.memtable
        = tdZero.memtable
    ∧ (replay_table_log_entries replayEnvOk 8 tdZero [⟨2, 5, .alterSchema⟩]).2.2 = none := by
  decide

/-- Claim C4, amended: `last_sequence := sequence` runs for every entry that
passes the old-log check and is not skipped for schema mismatch and does not
abort the table — including DDL entries and entries whose insert fails with
`KeyTooLarge`, not only successful inserts.  Entries skipped as too old or
for schema mismatch leave `last_sequence` unchanged, and a non-`KeyTooLarge`
insert error aborts the table before updating it. -/
theorem claim_C4_amended_last_sequence :
    -- (a) DDL entries advance last_sequence and insert nothing.
    (∀ (env : ReplayEnv) (limit flushed : Nat) (td : TableData)
        (e : LogEntry ReadPayload),
        flushed < e.sequence →
        e.payload = .alterSchema ∨ e.payload = .alterOptions →
        (replayGo env limit flushed td [e]).1 =
          { td with last_sequence := e.sequence })
    -- (b) a surviving write (success or KeyTooLarge) advances last_sequence.
    ∧ (∀ (env : ReplayEnv) (limit flushed : Nat) (td : TableData)
        (e : LogEntry ReadPayload) (rg : RowGroup),
        flushed < e.sequence →
        e.payload = .write rg →
        td.schema_version = rg.schema_version →
        env.write_outcome e.sequence rg ≠ .otherErr →
        env.schedule_flush_ok e.sequence = true →
        (replayGo env limit flushed td [e]).1.last_sequence = e.sequence)
    -- (c) a schema-mismatch entry changes nothing at all.
    ∧ (∀ (env : ReplayEnv) (limit flushed : Nat) (td : TableData)
        (e : LogEntry ReadPayload) (rg : RowGroup)
        (rest : List (LogEntry ReadPayload)),
        flushed < e.sequence →
        e.payload = .write rg →
        td.schema_version ≠ rg.schema_version →
        replayGo env limit flushed td (e :: rest) =
          replayGo env limit flushed td rest)
    -- (d) any other insert error aborts without updating last_sequence.
    ∧ (∀ (env : ReplayEnv) (limit flushed : Nat) (td : TableData)
        (e : LogEntry ReadPayload) (rg : RowGroup)
        (rest : List (LogEntry ReadPayload)),
        flushed < e.sequence →
        e.payload = .write rg →
        td.schema_version = rg.schema_version →
        env.write_outcome e.sequence rg = .otherErr →
        replayGo env limit flushed td (e :: rest) =
          (td, [.insertAttempt e.sequence .otherErr],
           some (.replayWalWithCause td.space_id td.name td.id)))
    -- (e) a flush-scheduling abort also leaves last_sequence unchanged.
    ∧ (∀ (env : ReplayEnv) (limit flushed : Nat) (td : TableData)
        (e : LogEntry ReadPayload) (rg : RowGroup)
        (rest : List (LogEntry ReadPayload)),
        flushed < e.sequence →
        e.payload = .write rg →
        td.schema_version = rg.schema_version →
        env.write_outcome e.sequence rg ≠ .otherErr →
        env.should_flush_table e.sequence (env.is_in_flush e.sequence) = true →
        env.schedule_flush_ok e.sequence = false →
        (replayGo env limit flushed td (e :: rest)).1.last_sequence =
          td.last_sequence) := by
  refine ⟨?_, ?_, ?_, ?_, ?_⟩
  · intro env limit flushed td e hseq hp
    have hns : ¬ e.sequence ≤ flushed := by omega
    rcases hp with hp | hp <;>
      · obtain ⟨etid, eseq, ep⟩ := e
        simp only [LogEntry.payload] at hp
        subst hp
        simp [replayGo, hns]
  · intro env limit flushed td e rg hseq hp hsv hwo hsch
    have hns : ¬ e.sequence ≤ flushed := by omega
    obtain ⟨etid, eseq, ep⟩ := e
    simp only [LogEntry.payload] at hp
    subst hp
    simp only [LogEntry.sequence] at hns hwo hsch ⊢
    cases hout : env.write_outcome eseq rg with
    | otherErr => exact absurd hout hwo
    | ok =>
      cases hsf : env.should_flush_table eseq (env.is_in_flush eseq) <;>
        simp [replayGo, hns, hsv, hout, hsf, hsch]
    | keyTooLarge =>
      cases hsf : env.should_flush_table eseq (env.is_in_flush eseq) <;>
        simp [replayGo, hns, hsv, hout, hsf, hsch]
  · intro env limit flushed td e rg rest hseq hp hsv
    have hns : ¬ e.sequence ≤ flushed := by omega
    obtain ⟨etid, eseq, ep⟩ := e
    simp only [LogEntry.payload] at hp
    subst hp
    simp [replayGo, hns, hsv]
  · intro env limit flushed td e rg rest hseq hp hsv hwo
    have hns : ¬ e.sequence ≤ flushed := by omega
    obtain ⟨etid, eseq, ep⟩ := e
    simp only [LogEntry.payload] at hp
    subst hp
    simp only [LogEntry.sequence] at hns hwo ⊢
    simp [replayGo, hns, hsv, hwo]
  · intro env limit flushed td e rg rest hseq hp hsv hwo hsf hsch
    have hns : ¬ e.sequence ≤ flushed := by omega
    obtain ⟨etid, eseq, ep⟩ := e
    simp only [LogEntry.payload] at hp
    subst hp
    simp only [LogEntry.sequence] at hns hwo hsf hsch ⊢
    cases hout : env.write_outcome eseq rg with
    | otherErr => exact absurd hout hwo
    | ok => simp [replayGo, hns, hsv, hout, hsf, hsch]
    | keyTooLarge => simp [replayGo, hns, hsv, hout, hsf, hsch]

/-- Witness for the amended claim C4: the DDL part applied to the concrete
`AlterSchema` entry at sequence 5. -/
theorem claim_C4_witness :
    (replayGo replayEnvOk 8 0 tdZero [⟨2, 5, .alterSchema⟩]).1 =
      { tdZero with last_sequence := 5 } :=
  claim_C4_amended_last_sequence.1 replayEnvOk 8 0 tdZero ⟨2, 5, .alterSchema⟩
    (by decide) (Or.inl rfl)

/-- Counterexample to claim C5: the insert of entry 1 fails with
`KeyTooLarge`, yet replay does **not** continue with the next entry — the
flush predicate fires, flush scheduling fails, and the table aborts: the
run returns an error, the trace stops at the failed scheduling, and entry 2
is never visited. -/
theorem claim_C5_counterexample :
    (replay_table_log_entries envAbortFlush 8 tdK
        [⟨2, 1, .write (rowsAt 1)⟩, ⟨2, 2, .write (rowsAt 2)⟩]).2.2
      = some (.replayWalWithCause 0 "d" 2)
    ∧ (replay_table_log_entries envAbortFlush 8 tdK
        [⟨2, 1, .write (rowsAt 1)⟩, ⟨2, 2, .write (rowsAt 2)⟩]).2.1
      = [.insertAttempt 1 .keyTooLarge, .flushEval 1 false true,
         .flushScheduled 1 ⟨none, 8⟩ false]
    ∧ (replay_table_log_entries envAbortFlush 8 tdK
        [⟨2, 1, .write (rowsAt 1)⟩, ⟨2, 2, .write (rowsAt 2)⟩]).1.last_sequence = 0 := by
  decide

/-- Claim C5, amended: when a memtable insert fails with `KeyTooLarge`, the
entry's rows are not inserted, the error is swallowed, and replay continues
with the next entry — unless the independent flush-scheduling step triggered
at this entry fails, which aborts the table as it would for any entry; when
the insert fails with any other error, apply returns a `ReplayWalWithCause`
error carrying the table context without processing the remaining entries. -/
theorem claim_C5_amended_insert_errors :
    -- (a) KeyTooLarge with flush scheduling available: state and result are
    -- those of continuing with the remaining entries from a state whose only
    -- change is `last_sequence` — no rows of this entry reach the memtable.
    (∀ (env : ReplayEnv) (limit flushed : Nat) (td : TableData)
        (e : LogEntry ReadPayload) (rg : RowGroup)
        (rest : List (LogEntry ReadPayload)),
        flushed < e.sequence →
        e.payload = .write rg →
        td.schema_version = rg.schema_version →
        env.write_outcome e.sequence rg = .keyTooLarge →
        env.schedule_flush_ok e.sequence = true →
        (replayGo env limit flushed td (e :: rest)).1 =
          (replayGo env limit flushed
            { td with last_sequence := e.sequence } rest).1
        ∧ (replayGo env limit flushed td (e :: rest)).2.2 =
          (replayGo env limit flushed
            { td with last_sequence := e.sequence } rest).2.2)
    -- (b) any other insert error aborts at once, with table context, and the
    -- remaining entries are not processed (the result does not depend on them).
    ∧ (∀ (env : ReplayEnv) (limit flushed : Nat) (td : TableData)
        (e : LogEntry ReadPayload) (rg : RowGroup)
        (rest : List (LogEntry ReadPayload)),
        flushed < e.sequence →
        e.payload = .write rg →
        td.schema_version = rg.schema_version →
        env.write_outcome e.sequence rg = .otherErr →
        replayGo env limit flushed td (e :: rest) =
          (td, [.insertAttempt e.sequence .otherErr],
           some (.replayWalWithCause td.space_id td.name td.id))) := by
  constructor
  · intro env limit flushed td e rg rest hseq hp hsv hwo hsch
    have hns : ¬ e.sequence ≤ flushed := by omega
    obtain ⟨etid, eseq, ep⟩ := e
    simp only [LogEntry.payload] at hp
    subst hp
    simp only [LogEntry.sequence] at hns hwo hsch ⊢
    cases hsf : env.should_flush_table eseq (env.is_in_flush eseq) <;>
      simp [replayGo, hns, hsv, hwo, hsf, hsch]
  · intro env limit flushed td e rg rest hseq hp hsv hwo
    have hns : ¬ e.sequence ≤ flushed := by omega
    obtain ⟨etid, eseq, ep⟩ := e
    simp only [LogEntry.payload] at hp
    subst hp
    simp only [LogEntry.sequence] at hns hwo ⊢
    simp [replayGo, hns, hsv, hwo]

/-- Witness for the amended claim C5: the KeyTooLarge part applied to a
concrete singleton run under `envDropNoFlush`. -/
theorem claim_C5_witness :
    (replayGo envDropNoFlush 8 0 tdK [⟨2, 1, .write (rowsAt 1)⟩]).1 =
      (replayGo envDropNoFlush 8 0 { tdK with last_sequence := 1 } []).1
    ∧ (replayGo envDropNoFlush 8 0 tdK [⟨2, 1, .write (rowsAt 1)⟩]).2.2 =
      (replayGo envDropNoFlush 8 0 { tdK with last_sequence := 1 } []).2.2 :=
  claim_C5_amended_insert_errors.1 envDropNoFlush 8 0 tdK
    ⟨2, 1, .write (rowsAt 1)⟩ (rowsAt 1) [] (by decide) rfl (by decide)
    (by decide) (by decide)

/-! ### Event classifiers for the flush-predicate claim -/

/-- Recognizes a flush-predicate evaluation event. -/
def isFlushEval : ReplayEvent → Bool
  | .flushEval _ _ _ => true
  | _ => false

/-- Recognizes a successful insert attempt. -/
def isOkInsert : ReplayEvent → Bool
  | .insertAttempt _ .ok => true
  | _ => false

/-- Recognizes an insert attempt that does not abort the table (successful,
or dropped as `KeyTooLarge`). -/
def isLiveInsert : ReplayEvent → Bool
  | .insertAttempt _ .otherErr => false
  | .insertAttempt _ _ => true
  | _ => false

/-- Recognizes a flush-predicate evaluation that returned `true`. -/
def isFlushEvalTrue : ReplayEvent → Bool
  | .flushEval _ _ r => r
  | _ => false

/-- Recognizes a flush-scheduling attempt. -/
def isFlushSched : ReplayEvent → Bool
  | .flushScheduled _ _ _ => true
  | _ => false

/-- In every replay run, the flush predicate is evaluated exactly once per
insert attempt that does not abort the table. -/
theorem replayGo_count_flushEval (env : ReplayEnv) (limit flushed : Nat) :
    ∀ (entries : List (LogEntry ReadPayload)) (td : TableData),
    (replayGo env limit flushed td entries).2.1.countP isFlushEval =
      (replayGo env limit flushed td entries).2.1.countP isLiveInsert := by
  intro entries
  induction entries with
  | nil => intro td; simp [replayGo]
  | cons e rest ih =>
    intro td
    obtain ⟨etid, eseq, ep⟩ := e
    by_cases hns : eseq ≤ flushed
    · simpa [replayGo, hns] using ih td
    · cases ep with
      | write rg =>
        by_cases hsv : td.schema_version = rg.schema_version
        · cases hout : env.write_outcome eseq rg with
          | otherErr =>
            simp [replayGo, hns, hsv, hout, isFlushEval, isLiveInsert]
          | ok =>
            cases hsf : env.should_flush_table eseq (env.is_in_flush eseq) with
            | false =>
              simp [replayGo, hns, hsv, hout, hsf, List.countP_cons,
                isFlushEval, isLiveInsert, ih]
            | true =>
              cases hsch : env.schedule_flush_ok eseq <;>
                simp [replayGo, hns, hsv, hout, hsf, hsch, List.countP_cons,
                  isFlushEval, isLiveInsert, ih]
          | keyTooLarge =>
            cases hsf : env.should_flush_table eseq (env.is_in_flush eseq) with
            | false =>
              simp [replayGo, hns, hsv, hout, hsf, List.countP_cons,
                isFlushEval, isLiveInsert, ih]
            | true =>
              cases hsch : env.schedule_flush_ok eseq <;>
                simp [replayGo, hns, hsv, hout, hsf, hsch, List.countP_cons,
                  isFlushEval, isLiveInsert, ih]
        · simpa [replayGo, hns, hsv] using ih td
      | alterSchema =>
        simp [replayGo, hns, List.countP_cons, isFlushEval, isLiveInsert, ih]
      | alterOptions =>
        simp [replayGo, hns, List.countP_cons, isFlushEval, isLiveInsert, ih]

/-- Recognizes a flush-scheduling event whose options differ from
`{res_sender := none, max_retry_flush_limit := limit}`. -/
def isBadSched (limit : Nat) : ReplayEvent → Bool
  | .flushScheduled _ opts _ => !(opts == ⟨none, limit⟩)
  | _ => false

/-- No replay run ever schedules a flush with options other than
`{res_sender := none, max_retry_flush_limit := limit}`. -/
theorem replayGo_badSched_zero (env : ReplayEnv) (limit flushed : Nat) :
    ∀ (entries : List (LogEntry ReadPayload)) (td : TableData),
    (replayGo env limit flushed td entries).2.1.countP (isBadSched limit) = 0 := by
  intro entries
  induction entries with
  | nil => intro td; simp [replayGo]
  | cons e rest ih =>
    intro td
    obtain ⟨etid, eseq, ep⟩ := e
    by_cases hns : eseq ≤ flushed
    · simpa [replayGo, hns] using ih td
    · cases ep with
      | write rg =>
        by_cases hsv : td.schema_version = rg.schema_version
        · cases hout : env.write_outcome eseq rg with
          | otherErr =>
            simp [replayGo, hns, hsv, hout, isBadSched]
          | ok =>
            cases hsf : env.should_flush_table eseq (env.is_in_flush eseq) with
            | false =>
              simp [replayGo, hns, hsv, hout, hsf, List.countP_cons, isBadSched, ih]
            | true =>
              cases hsch : env.schedule_flush_ok eseq <;>
                simp [replayGo, hns, hsv, hout, hsf, hsch, List.countP_cons,
                  isBadSched, ih]
          | keyTooLarge =>
            cases hsf : env.should_flush_table eseq (env.is_in_flush eseq) with
            | false =>
              simp [replayGo, hns, hsv, hout, hsf, List.countP_cons, isBadSched, ih]
            | true =>
              cases hsch : env.schedule_flush_ok eseq <;>
                simp [replayGo, hns, hsv, hout, hsf, hsch, List.countP_cons,
                  isBadSched, ih]
        · simpa [replayGo, hns, hsv] using ih td
      | alterSchema =>
        simp [replayGo, hns, List.countP_cons, isBadSched, ih]
      | alterOptions =>
        simp [replayGo, hns, List.countP_cons, isBadSched, ih]

/-- Every scheduled flush of a replay run uses no result channel and the
configured `max_retry_flush_limit`. -/
theorem replayGo_flushScheduled_opts (env : ReplayEnv) (limit flushed : Nat)
    (entries : List (LogEntry ReadPayload)) (td : TableData)
    (s : Nat) (opts : TableFlushOptions) (ok : Bool)
    (h : ReplayEvent.flushScheduled s opts ok ∈
      (replayGo env limit flushed td entries).2.1) :
    opts = ⟨none, limit⟩ := by
  have h0 := replayGo_badSched_zero env limit flushed entries td
  rw [List.countP_eq_zero] at h0
  have hb := h0 _ h
  simpa [isBadSched] using hb

/-- In every replay run, the number of flush-scheduling attempts equals the
number of flush-predicate evaluations that returned `true`. -/
theorem replayGo_count_flushSched (env : ReplayEnv) (limit flushed : Nat) :
    ∀ (entries : List (LogEntry ReadPayload)) (td : TableData),
    (replayGo env limit flushed td entries).2.1.countP isFlushSched =
      (replayGo env limit flushed td entries).2.1.countP isFlushEvalTrue := by
  intro entries
  induction entries with
  | nil => intro td; simp [replayGo]
  | cons e rest ih =>
    intro td
    obtain ⟨etid, eseq, ep⟩ := e
    by_cases hns : eseq ≤ flushed
    · simpa [replayGo, hns] using ih td
    · cases ep with
      | write rg =>
        by_cases hsv : td.schema_version = rg.schema_version
        · cases hout : env.write_outcome eseq rg with
          | otherErr =>
            simp [replayGo, hns, hsv, hout, isFlushSched, isFlushEvalTrue]
          | ok =>
            cases hsf : env.should_flush_table eseq (env.is_in_flush eseq) with
            | false =>
              simp [replayGo, hns, hsv, hout, hsf, List.countP_cons,
                isFlushSched, isFlushEvalTrue, ih]
            | true =>
              cases hsch : env.schedule_flush_ok eseq <;>
                simp [replayGo, hns, hsv, hout, hsf, hsch, List.countP_cons,
                  isFlushSched, isFlushEvalTrue, ih]
          | keyTooLarge =>
            cases hsf : env.should_flush_table eseq (env.is_in_flush eseq) with
            | false =>
              simp [replayGo, hns, hsv, hout, hsf, List.countP_cons,
                isFlushSched, isFlushEvalTrue, ih]
            | true =>
              cases hsch : env.schedule_flush_ok eseq <;>
                simp [replayGo, hns, hsv, hout, hsf, hsch, List.countP_cons,
                  isFlushSched, isFlushEvalTrue, ih]
        · simpa [replayGo, hns, hsv] using ih td
      | alterSchema =>
        simp [replayGo, hns, List.countP_cons, isFlushSched, isFlushEvalTrue, ih]
      | alterOptions =>
        simp [replayGo, hns, List.countP_cons, isFlushSched, isFlushEvalTrue, ih]

/-- Counterexample to claim C6: under `envDropNoFlush`, the single entry's
insert fails with `KeyTooLarge` — there is no successful memtable insert —
and yet the flush predicate is evaluated once, refuting "evaluated after
each successful memtable insert (and only then)". -/
theorem claim_C6_counterexample :
    (replay_table_log_entries envDropNoFlush 8 tdK
        [⟨2, 1, .write (rowsAt 1)⟩]).2.1.countP isFlushEval = 1
    ∧ (replay_table_log_entries envDropNoFlush 8 tdK
        [⟨2, 1, .write (rowsAt 1)⟩]).2.1.countP isOkInsert = 0 := by
  decide

/-- Claim C6, amended: the flush predicate is evaluated exactly once after
each memtable insert attempt that does not abort the table — i.e. after
successful inserts *and* after inserts dropped as `KeyTooLarge`, and never
otherwise; each time it returns true a flush is scheduled with the
configured `max_retry_flush_limit` and no result channel; and a failure of
flush scheduling aborts the table's replay with an error. -/
theorem claim_C6_amended_flush_predicate :
    -- (1) one evaluation per non-aborting insert attempt, and only then.
    (∀ (env : ReplayEnv) (limit flushed : Nat)
        (entries : List (LogEntry ReadPayload)) (td : TableData),
        (replayGo env limit flushed td entries).2.1.countP isFlushEval =
          (replayGo env limit flushed td entries).2.1.countP isLiveInsert)
    -- (2) every scheduled flush uses `max_retry_flush_limit` and no channel.
    ∧ (∀ (env : ReplayEnv) (limit flushed : Nat)
        (entries : List (LogEntry ReadPayload)) (td : TableData)
        (s : Nat) (opts : TableFlushOptions) (ok : Bool),
        ReplayEvent.flushScheduled s opts ok ∈
          (replayGo env limit flushed td entries).2.1 →
        opts = ⟨none, limit⟩)
    -- (3) a flush is scheduled exactly when the predicate returns true.
    ∧ (∀ (env : ReplayEnv) (limit flushed : Nat)
        (entries : List (LogEntry ReadPayload)) (td : TableData),
        (replayGo env limit flushed td entries).2.1.countP isFlushSched =
          (replayGo env limit flushed td entries).2.1.countP isFlushEvalTrue)
    -- (4) a flush-scheduling failure aborts the table with an error.
    ∧ (∀ (env : ReplayEnv) (limit flushed : Nat) (td : TableData)
        (e : LogEntry ReadPayload) (rg : RowGroup)
        (rest : List (LogEntry ReadPayload)),
        flushed < e.sequence →
        e.payload = .write rg →
        td.schema_version = rg.schema_version →
        env.write_outcome e.sequence rg ≠ .otherErr →
        env.should_flush_table e.sequence (env.is_in_flush e.sequence) = true →
        env.schedule_flush_ok e.sequence = false →
        (replayGo env limit flushed td (e :: rest)).2.2 =
          some (.replayWalWithCause td.space_id td.name td.id)
        ∧ (replayGo env limit flushed td (e :: rest)).2.1 =
          [.insertAttempt e.sequence (env.write_outcome e.sequence rg),
           .flushEval e.sequence (env.is_in_flush e.sequence) true,
           .flushScheduled e.sequence ⟨none, limit⟩ false]) := by
  refine ⟨?_, ?_, ?_, ?_⟩
  · intro env limit flushed entries td
    exact replayGo_count_flushEval env limit flushed entries td
  · intro env limit flushed entries td s opts ok h
    exact replayGo_flushScheduled_opts env limit flushed entries td s opts ok h
  · intro env limit flushed entries td
    exact replayGo_count_flushSched env limit flushed entries td
  · intro env limit flushed td e rg rest hseq hp hsv hwo hsf hsch
    have hns : ¬ e.sequence ≤ flushed := by omega
    obtain ⟨etid, eseq, ep⟩ := e
    simp only [LogEntry.payload] at hp
    subst hp
    simp only [LogEntry.sequence] at hns hwo hsf hsch ⊢
    cases hout : env.write_outcome eseq rg with
    | otherErr => exact absurd hout hwo
    | ok => simp [replayGo, hns, hsv, hout, hsf, hsch]
    | keyTooLarge => simp [replayGo, hns, hsv, hout, hsf, hsch]

/-- Witness for the amended claim C6: its abort part applied to the concrete
run whose flush scheduling fails. -/
theorem claim_C6_witness :
    (replayGo envAbortFlush 8 0 tdK [⟨2, 1, .write (rowsAt 1)⟩]).2.2 =
      some (.replayWalWithCause 0 "d" 2)
    ∧ (replayGo envAbortFlush 8 0 tdK [⟨2, 1, .write (rowsAt 1)⟩]).2.1 =
      [.insertAttempt 1 .keyTooLarge, .flushEval 1 false true,
       .flushScheduled 1 ⟨none, 8⟩ false] :=
  claim_C6_amended_flush_predicate.2.2.2 envAbortFlush 8 0 tdK
    ⟨2, 1, .write (rowsAt 1)⟩ (rowsAt 1) [] (by decide) rfl (by decide)
    (by decide) (by decide) (by decide)

/-! ### Replay strategies (wal_replayer.rs)

`TableBasedReplay::run` (lines 179-214) and `RegionBasedReplay` (lines
281-433) drive per-table work and collect per-table failures into
`FailedTables = HashMap<TableId, Error>`.  The per-table recovery
(`recover_table_logs`) and the application of one table's entries
(`replay_table_log_entries`, whose internals are verified above) appear here
as outcome oracles.  `buffer_unordered(20)` completes all spawned tasks and
the failure map is keyed by distinct table ids, so its content is
independent of completion order; the embedding runs tasks in spawn order.
The failure map is an association list with `HashMap::insert` overwrite
semantics. -/

/-- `HashMap::insert` on the failure map: overwrite, keep other keys. -/
def insertFailed (m : List (Nat × ReplayError)) (k : Nat) (v : ReplayError) :
    List (Nat × ReplayError) :=
  match m with
  | [] => [(k, v)]
  | (k', v') :: rest =>
    if k' = k then (k, v) :: rest else (k', v') :: insertFailed rest k v

/-- Lookup in the failure map. -/
def lookupFailed (m : List (Nat × ReplayError)) (k : Nat) : Option ReplayError :=
  match m with
  | [] => none
  | (k', v') :: rest => if k' = k then some v' else lookupFailed rest k

/-- `failed_tables.contains_key(..)`. -/
def containsFailed (m : List (Nat × ReplayError)) (k : Nat) : Bool :=
  (lookupFailed m k).isSome

/-- The result-collection step of `TableBasedReplay::run` (lines 206-211):
record a failed table in the failure map, keep successes out of it. -/
def recoverStep (recover : Nat → Option ReplayError)
    (failed_tables : List (Nat × ReplayError)) (table_id : Nat) :
    List (Nat × ReplayError) :=
  match recover table_id with
  | some e => insertFailed failed_tables table_id e
  | none => failed_tables

/-- `TableBasedReplay::run`: every table is recovered independently; an
error is recorded in the failure map and the run itself returns `Ok`
(lines 206-213).  `recover` is the outcome of `recover_table_logs` for each
table id. -/
def table_based_run (recover : Nat → Option ReplayError) (table_ids : List Nat) :
    Except ReplayError (List (Nat × ReplayError)) :=
  .ok (table_ids.foldl (recoverStep recover) [])

/-- The `flat_map` of `RegionBasedReplay::replay_single_batch` (lines
398-402): collect the entries selected by a table batch's ranges, in range
order. -/
def entriesOfRanges {P : Type} (log_batch : List (LogEntry P))
    (ranges : List (Nat × Nat)) : List (LogEntry P) :=
  match ranges with
  | [] => []
  | r :: rest => (log_batch.drop r.1).take (r.2 - r.1) ++ entriesOfRanges log_batch rest

/-- One result of the task-collection loop of
`RegionBasedReplay::replay_single_batch` (lines 425-430): a task whose table
has a serial-exec context runs `replay_table_log_entries` and records a
failure; a task without one is `(table_id, None)` and changes nothing. -/
def applyTaskStep {P : Type}
    (apply_result : Nat → List (LogEntry P) → Option ReplayError)
    (exec_tables : List Nat) (acc : List (Nat × ReplayError))
    (task : Nat × List (LogEntry P)) : List (Nat × ReplayError) :=
  if task.1 ∈ exec_tables then
    match apply_result task.1 task.2 with
    | some e => insertFailed acc task.1 e
    | none => acc
  else acc

/-- `RegionBasedReplay::replay_single_batch` (lines 381-433): split the
batch, skip tables already failed, run the rest (a table without a serial
executor context — moved or dropped — yields `(table_id, None)` and is
ignored), and record the failures.  Returns the updated failure map and the
list of `(table_id, entries)` pairs actually handed to
`replay_table_log_entries`. -/
def replay_single_batch {P : Type}
    (apply_result : Nat → List (LogEntry P) → Option ReplayError)
    (exec_tables : List Nat) (log_batch : List (LogEntry P))
    (failed_tables : List (Nat × ReplayError)) :
    List (Nat × ReplayError) × List (Nat × List (LogEntry P)) :=
  let table_batches := split_log_batch_by_table log_batch
  -- Some tables may have failed in previous replay, ignore them (line 395).
  let replay_tasks := table_batches.filterMap (fun tb =>
    if containsFailed failed_tables tb.1 then none
    else some (tb.1, entriesOfRanges log_batch tb.2))
  -- Collect results; only tables with a serial-exec context run (line 407).
  let failed' := replay_tasks.foldl (applyTaskStep apply_result exec_tables) failed_tables
  (failed', replay_tasks.filter (fun task => decide (task.1 ∈ exec_tables)))

/-- The batch loop of `RegionBasedReplay::replay_region_logs` (lines
358-376): apply `replay_single_batch` to each pulled batch, threading the
failure map. -/
def replay_region_batches {P : Type}
    (apply_result : Nat → List (LogEntry P) → Option ReplayError)
    (exec_tables : List Nat) :
    List (List (LogEntry P)) → List (Nat × ReplayError) →
    List (Nat × ReplayError) × List (Nat × List (LogEntry P))
  | [], failed_tables => (failed_tables, [])
  | b :: rest, failed_tables =>
    let r1 := replay_single_batch apply_result exec_tables b failed_tables
    let r2 := replay_region_batches apply_result exec_tables rest r1.1
    (r2.1, r1.2 ++ r2.2)

/-- `RegionBasedReplay::run` (lines 282-299 and 320-379): creating the scan
can fail shard-wide (`scan_err`); otherwise each pulled batch is filtered by
`log_filter = table_datas_by_id.contains_key` (line 362) before being split
and replayed, starting from an empty failure map, and the failure map is
returned under `Ok`. -/
def region_based_run {P : Type} (scan_err : Option ReplayError)
    (apply_result : Nat → List (LogEntry P) → Option ReplayError)
    (exec_tables : List Nat) (raw_batches : List (List (LogEntry P))) :
    Except ReplayError (List (Nat × ReplayError)) :=
  match scan_err with
  | some e => .error e
  | none =>
    .ok (replay_region_batches apply_result exec_tables
      (raw_batches.map (fun raw =>
        raw.filter (fun e => decide (e.table_id ∈ exec_tables)))) []).1

/-! ### Lemmas about the failure map and the strategy runs -/

theorem lookupFailed_insertFailed_self (m : List (Nat × ReplayError)) (k : Nat)
    (v : ReplayError) : lookupFailed (insertFailed m k v) k = some v := by
  induction m with
  | nil => simp [insertFailed, lookupFailed]
  | cons hd rest ih =>
    obtain ⟨k', v'⟩ := hd
    by_cases hk : k' = k
    · simp [insertFailed, lookupFailed, hk]
    · simp [insertFailed, lookupFailed, hk, ih]

theorem lookupFailed_insertFailed_other (m : List (Nat × ReplayError)) (k t : Nat)
    (v : ReplayError) (h : k ≠ t) :
    lookupFailed (insertFailed m k v) t = lookupFailed m t := by
  induction m with
  | nil => simp [insertFailed, lookupFailed, h]
  | cons hd rest ih =>
    obtain ⟨k', v'⟩ := hd
    by_cases hk : k' = k
    · subst hk
      simp [insertFailed, lookupFailed, h]
    · simp [insertFailed, lookupFailed, hk, ih]

theorem recoverFold_not_mem (recover : Nat → Option ReplayError) (t : Nat) :
    ∀ (ids : List Nat) (acc : List (Nat × ReplayError)), t ∉ ids →
    lookupFailed (ids.foldl (recoverStep recover) acc) t = lookupFailed acc t := by
  intro ids
  induction ids with
  | nil => intro acc _; rfl
  | cons tid rest ih =>
    intro acc h
    have htid : tid ≠ t := fun hh => h (hh ▸ List.mem_cons_self _ _)
    have hrest : t ∉ rest := fun hh => h (List.mem_cons_of_mem _ hh)
    rw [List.foldl_cons, ih _ hrest]
    unfold recoverStep
    cases recover tid with
    | some e => exact lookupFailed_insertFailed_other acc tid t e htid
    | none => rfl

theorem recoverFold_mem (recover : Nat → Option ReplayError) (t : Nat) :
    ∀ (ids : List Nat) (acc : List (Nat × ReplayError)), ids.Nodup → t ∈ ids →
    lookupFailed (ids.foldl (recoverStep recover) acc) t =
      (match recover t with
       | some e => some e
       | none => lookupFailed acc t) := by
  intro ids
  induction ids with
  | nil => intro acc _ h; exact absurd h (List.not_mem_nil t)
  | cons tid rest ih =>
    intro acc hnd hmem
    rw [List.nodup_cons] at hnd
    rw [List.foldl_cons]
    by_cases ht : t = tid
    · subst ht
      rw [recoverFold_not_mem recover t rest _ hnd.1]
      unfold recoverStep
      cases recover t with
      | some e => exact lookupFailed_insertFailed_self acc t e
      | none => rfl
    · have hmem' : t ∈ rest := by
        rcases List.mem_cons.mp hmem with h | h
        · exact absurd h ht
        · exact h
      rw [ih _ hnd.2 hmem']
      cases recover t with
      | some e => rfl
      | none =>
        unfold recoverStep
        cases recover tid with
        | some e' =>
          exact lookupFailed_insertFailed_other acc tid t e' (fun hh => ht hh.symm)
        | none => rfl

/-- Every task spawned by `replay_single_batch` is for a table that had not
failed before this batch. -/
theorem replay_tasks_not_failed {P : Type} (log_batch : List (LogEntry P))
    (failed : List (Nat × ReplayError)) (task : Nat × List (LogEntry P))
    (h : task ∈ (split_log_batch_by_table log_batch).filterMap (fun tb =>
      if containsFailed failed tb.1 then none
      else some (tb.1, entriesOfRanges log_batch tb.2))) :
    containsFailed failed task.1 = false := by
  rw [List.mem_filterMap] at h
  obtain ⟨tb, _, heq⟩ := h
  by_cases hc : containsFailed failed tb.1
  · simp [hc] at heq
  · rw [if_neg (by simpa using hc)] at heq
    obtain rfl : (tb.1, entriesOfRanges log_batch tb.2) = task :=
      Option.some.inj heq
    simpa using hc

theorem applyFold_preserve {P : Type}
    (apply_result : Nat → List (LogEntry P) → Option ReplayError)
    (exec_tables : List Nat) (t : Nat) :
    ∀ (tasks : List (Nat × List (LogEntry P))) (acc : List (Nat × ReplayError)),
    (∀ task ∈ tasks, task.1 ≠ t) →
    lookupFailed (tasks.foldl (applyTaskStep apply_result exec_tables) acc) t =
      lookupFailed acc t := by
  intro tasks
  induction tasks with
  | nil => intro acc _; rfl
  | cons task rest ih =>
    intro acc h
    have htask : task.1 ≠ t := h task (List.mem_cons_self _ _)
    rw [List.foldl_cons, ih _ (fun x hx => h x (List.mem_cons_of_mem _ hx))]
    unfold applyTaskStep
    by_cases he : task.1 ∈ exec_tables
    · rw [if_pos he]
      cases apply_result task.1 task.2 with
      | some e => exact lookupFailed_insertFailed_other acc task.1 t e htask
      | none => rfl
    · rw [if_neg he]

theorem applyFold_not_exec {P : Type}
    (apply_result : Nat → List (LogEntry P) → Option ReplayError)
    (exec_tables : List Nat) (t : Nat) (ht : t ∉ exec_tables) :
    ∀ (tasks : List (Nat × List (LogEntry P))) (acc : List (Nat × ReplayError)),
    lookupFailed (tasks.foldl (applyTaskStep apply_result exec_tables) acc) t =
      lookupFailed acc t := by
  intro tasks
  induction tasks with
  | nil => intro acc; rfl
  | cons task rest ih =>
    intro acc
    rw [List.foldl_cons, ih]
    unfold applyTaskStep
    by_cases he : task.1 ∈ exec_tables
    · rw [if_pos he]
      have htask : task.1 ≠ t := fun hh => ht (hh ▸ he)
      cases apply_result task.1 task.2 with
      | some e => exact lookupFailed_insertFailed_other acc task.1 t e htask
      | none => rfl
    · rw [if_neg he]

/-- A table that already failed is skipped by `replay_single_batch`: its
recorded error is untouched and it is never applied. -/
theorem replay_single_batch_failed_skip {P : Type}
    (apply_result : Nat → List (LogEntry P) → Option ReplayError)
    (exec_tables : List Nat) (log_batch : List (LogEntry P))
    (failed : List (Nat × ReplayError)) (t : Nat)
    (h : containsFailed failed t = true) :
    lookupFailed (replay_single_batch apply_result exec_tables log_batch failed).1 t
      = lookupFailed failed t
    ∧ ∀ es, (t, es) ∉ (replay_single_batch apply_result exec_tables log_batch failed).2 := by
  constructor
  · apply applyFold_preserve
    intro task hmem heq
    have := replay_tasks_not_failed log_batch failed task hmem
    rw [heq] at this
    rw [this] at h
    exact Bool.false_ne_true h
  · intro es hmem
    simp only [replay_single_batch] at hmem
    rw [List.mem_filter] at hmem
    have := replay_tasks_not_failed log_batch failed (t, es) hmem.1
    simp only at this
    rw [this] at h
    exact Bool.false_ne_true h

/-- A table without a serial-exec context is ignored by
`replay_single_batch`: nothing recorded, nothing applied. -/
theorem replay_single_batch_not_exec {P : Type}
    (apply_result : Nat → List (LogEntry P) → Option ReplayError)
    (exec_tables : List Nat) (log_batch : List (LogEntry P))
    (failed : List (Nat × ReplayError)) (t : Nat) (ht : t ∉ exec_tables) :
    lookupFailed (replay_single_batch apply_result exec_tables log_batch failed).1 t
      = lookupFailed failed t
    ∧ ∀ es, (t, es) ∉ (replay_single_batch apply_result exec_tables log_batch failed).2 := by
  constructor
  · exact applyFold_not_exec apply_result exec_tables t ht _ failed
  · intro es hmem
    simp only [replay_single_batch] at hmem
    rw [List.mem_filter] at hmem
    have := hmem.2
    simp only [decide_eq_true_eq] at this
    exact ht this

/-- Threading `replay_single_batch` over all batches keeps a non-replayed
table out of the failure map. -/
theorem replay_region_batches_not_exec {P : Type}
    (apply_result : Nat → List (LogEntry P) → Option ReplayError)
    (exec_tables : List Nat) (t : Nat) (ht : t ∉ exec_tables) :
    ∀ (batches : List (List (LogEntry P))) (failed : List (Nat × ReplayError)),
    lookupFailed (replay_region_batches apply_result exec_tables batches failed).1 t
      = lookupFailed failed t := by
  intro batches
  induction batches with
  | nil => intro failed; rfl
  | cons b rest ih =>
    intro failed
    simp only [replay_region_batches]
    rw [ih, (replay_single_batch_not_exec apply_result exec_tables b failed t ht).1]

/-- The per-table coverage property of the splitter, at the top level. -/
theorem split_covered {P : Type} (log_batch : List (LogEntry P)) (t : Nat) :
    coveredIdxs (lookupRanges (split_log_batch_by_table log_batch) t) =
      entryIdxs log_batch t := by
  cases log_batch with
  | nil => simp [split_log_batch_by_table, lookupRanges, coveredIdxs, entryIdxs, entryIdxsFrom]
  | cons e rest =>
    rw [split_log_batch_by_table, splitGo_covered t (e :: rest) 0 0 e.table_id [] le_rfl]
    simp [lookupRanges, coveredIdxs, rangeIdxs, entryIdxs]

theorem entryIdxsFrom_ne_nil {P : Type} (t : Nat) :
    ∀ (l : List (LogEntry P)) (curr : Nat),
    (∃ e ∈ l, e.table_id = t) → entryIdxsFrom t curr l ≠ [] := by
  intro l
  induction l with
  | nil =>
    intro curr h
    obtain ⟨e, he, _⟩ := h
    exact absurd he (List.not_mem_nil e)
  | cons e rest ih =>
    intro curr h
    by_cases hid : e.table_id = t
    · simp [entryIdxsFrom, hid]
    · have h' : ∃ x ∈ rest, x.table_id = t := by
        obtain ⟨x, hx, hxt⟩ := h
        rcases List.mem_cons.mp hx with rfl | hx'
        · exact absurd hxt hid
        · exact ⟨x, hx', hxt⟩
      simpa [entryIdxsFrom, hid] using ih (curr + 1) h'

theorem lookupRanges_mem (m : List (Nat × List (Nat × Nat))) (t : Nat)
    (h : lookupRanges m t ≠ []) : (t, lookupRanges m t) ∈ m := by
  induction m with
  | nil => exact absurd rfl h
  | cons hd rest ih =>
    obtain ⟨k, rs⟩ := hd
    by_cases hk : k = t
    · subst hk
      simp [lookupRanges]
    · rw [lookupRanges, if_neg hk] at h ⊢
      exact List.mem_cons_of_mem _ (ih h)

/-- A table with at least one entry in the batch owns a table batch in the
split result. -/
theorem split_mem_of_present {P : Type} (log_batch : List (LogEntry P)) (t : Nat)
    (h : ∃ e ∈ log_batch, e.table_id = t) :
    (t, lookupRanges (split_log_batch_by_table log_batch) t) ∈
      split_log_batch_by_table log_batch := by
  apply lookupRanges_mem
  intro hnil
  have hc := split_covered log_batch t
  rw [hnil] at hc
  exact entryIdxsFrom_ne_nil t log_batch 0 h hc.symm

/-- A not-yet-failed table with a serial-exec context and entries in the
batch is actually applied by `replay_single_batch`. -/
theorem replay_single_batch_applies {P : Type}
    (apply_result : Nat → List (LogEntry P) → Option ReplayError)
    (exec_tables : List Nat) (log_batch : List (LogEntry P))
    (failed : List (Nat × ReplayError)) (t : Nat)
    (hf : containsFailed failed t = false) (he : t ∈ exec_tables)
    (hp : ∃ e ∈ log_batch, e.table_id = t) :
    (t, entriesOfRanges log_batch (lookupRanges (split_log_batch_by_table log_batch) t))
      ∈ (replay_single_batch apply_result exec_tables log_batch failed).2 := by
  simp only [replay_single_batch]
  rw [List.mem_filter]
  constructor
  · rw [List.mem_filterMap]
    exact ⟨(t, lookupRanges (split_log_batch_by_table log_batch) t),
      split_mem_of_present log_batch t hp, by simp [hf]⟩
  · simpa using he

/-- Claim C3: a replay strategy's run returns the per-table failures as a
map and succeeds even when some tables fail; one table's failure never
aborts the others; and in region-based replay an already-failed table is
skipped (not applied, not retried) while the other tables continue. -/
theorem claim_C3_per_table_failures :
    -- (a) table-based run: always Ok; each table's map entry is exactly its
    -- own recovery outcome, independent of every other table.
    (∀ (recover : Nat → Option ReplayError) (table_ids : List Nat),
        ∃ m, table_based_run recover table_ids = .ok m
          ∧ (table_ids.Nodup → ∀ t ∈ table_ids, lookupFailed m t = recover t)
          ∧ (∀ t, t ∉ table_ids → lookupFailed m t = none))
    -- (b) region-based run: Ok whenever the shard-wide scan was created.
    ∧ (∀ (P : Type) (apply_result : Nat → List (LogEntry P) → Option ReplayError)
        (exec_tables : List Nat) (raw_batches : List (List (LogEntry P))),
        ∃ m, region_based_run none apply_result exec_tables raw_batches = .ok m)
    -- (c) an already-failed table is skipped by a later batch: its entries
    -- are not applied and its recorded error is not retried or replaced.
    ∧ (∀ (P : Type) (apply_result : Nat → List (LogEntry P) → Option ReplayError)
        (exec_tables : List Nat) (log_batch : List (LogEntry P))
        (failed : List (Nat × ReplayError)) (t : Nat),
        containsFailed failed t = true →
        lookupFailed (replay_single_batch apply_result exec_tables log_batch failed).1 t
          = lookupFailed failed t
        ∧ ∀ es, (t, es) ∉ (replay_single_batch apply_result exec_tables log_batch failed).2)
    -- (d) the other tables continue: a not-yet-failed table with entries in
    -- the batch and a serial-exec context is applied.
    ∧ (∀ (P : Type) (apply_result : Nat → List (LogEntry P) → Option ReplayError)
        (exec_tables : List Nat) (log_batch : List (LogEntry P))
        (failed : List (Nat × ReplayError)) (t : Nat),
        containsFailed failed t = false → t ∈ exec_tables →
        (∃ e ∈ log_batch, e.table_id = t) →
        ∃ es, (t, es) ∈ (replay_single_batch apply_result exec_tables log_batch failed).2) := by
  refine ⟨?_, ?_, ?_, ?_⟩
  · intro recover table_ids
    refine ⟨table_ids.foldl (recoverStep recover) [], rfl, ?_, ?_⟩
    · intro hnd t hmem
      rw [recoverFold_mem recover t table_ids [] hnd hmem]
      cases recover t with
      | some e => rfl
      | none => rfl
    · intro t hmem
      rw [recoverFold_not_mem recover t table_ids [] hmem]
      rfl
  · intro P apply_result exec_tables raw_batches
    exact ⟨_, rfl⟩
  · intro P apply_result exec_tables log_batch failed t h
    exact replay_single_batch_failed_skip apply_result exec_tables log_batch failed t h
  · intro P apply_result exec_tables log_batch failed t hf he hp
    exact ⟨_, replay_single_batch_applies apply_result exec_tables log_batch failed t hf he hp⟩

/-- Witness for claim C3: the table-based part applied to two concrete
tables, one failing and one succeeding. -/
theorem claim_C3_witness :
    table_based_run
        (fun tid => if tid = 4 then some (.replayWalWithCause 0 "a" 4) else none)
        [4, 5]
      = .ok [(4, .replayWalWithCause 0 "a" 4)]
    ∧ lookupFailed [(4, .replayWalWithCause 0 "a" 4)] 4
        = some (.replayWalWithCause 0 "a" 4)
    ∧ lookupFailed [(4, .replayWalWithCause 0 "a" 4)] 5 = none := by
  obtain ⟨m, hok, hmem, _⟩ :=
    claim_C3_per_table_failures.1
      (fun tid => if tid = 4 then some (.replayWalWithCause 0 "a" 4) else none) [4, 5]
  have hm : m = [(4, .replayWalWithCause 0 "a" 4)] := by
    have := hok
    rw [table_based_run] at this
    exact (Except.ok.inj this).symm
  refine ⟨hm ▸ hok, ?_, ?_⟩
  · have := hmem (by decide) 4 (by decide)
    rw [hm] at this
    simpa using this
  · have := hmem (by decide) 5 (by decide)
    rw [hm] at this
    simpa using this

/-- Claim C10: during region-based replay, a log entry of a table that is
not being replayed is filtered out before splitting; a table batch whose
table has no serial-exec context is ignored without applying its entries;
and in both cases the table never enters the returned failure map — the
entries are silently discarded, not reported as failures. -/
theorem claim_C10_foreign_tables_ignored :
    -- (a) the scan filter keeps exactly the entries of replayed tables.
    (∀ (P : Type) (exec_tables : List Nat) (raw : List (LogEntry P)) (e : LogEntry P),
        e ∈ raw.filter (fun x => decide (x.table_id ∈ exec_tables)) ↔
          (e ∈ raw ∧ e.table_id ∈ exec_tables))
    -- (b) a table batch without a serial-exec context is ignored: its
    -- entries are not applied and it is not recorded as failed.
    ∧ (∀ (P : Type) (apply_result : Nat → List (LogEntry P) → Option ReplayError)
        (exec_tables : List Nat) (log_batch : List (LogEntry P))
        (failed : List (Nat × ReplayError)) (t : Nat),
        t ∉ exec_tables →
        lookupFailed (replay_single_batch apply_result exec_tables log_batch failed).1 t
          = lookupFailed failed t
        ∧ ∀ es, (t, es) ∉ (replay_single_batch apply_result exec_tables log_batch failed).2)
    -- (c) end to end, a table that is not being replayed never appears in
    -- the failure map returned by the region-based run.
    ∧ (∀ (P : Type) (apply_result : Nat → List (LogEntry P) → Option ReplayError)
        (exec_tables : List Nat) (raw_batches : List (List (LogEntry P)))
        (t : Nat) (m : List (Nat × ReplayError)),
        t ∉ exec_tables →
        region_based_run none apply_result exec_tables raw_batches = .ok m →
        lookupFailed m t = none) := by
  refine ⟨?_, ?_, ?_⟩
  · intro P exec_tables raw e
    simp [List.mem_filter]
  · intro P apply_result exec_tables log_batch failed t ht
    exact replay_single_batch_not_exec apply_result exec_tables log_batch failed t ht
  · intro P apply_result exec_tables raw_batches t m ht hok
    rw [region_based_run] at hok
    obtain rfl := Except.ok.inj hok
    rw [replay_region_batches_not_exec apply_result exec_tables t ht _ []]
    rfl

/-- Witness for claim C10: a table (id 9) outside the replayed set, against
a batch that contains one of its entries. -/
theorem claim_C10_witness :
    lookupFailed (replay_single_batch (fun _ _ => none) [5]
        [(⟨9, 1, ()⟩ : LogEntry Unit)] []).1 9 = lookupFailed [] 9
    ∧ ∀ es, (9, es) ∉ (replay_single_batch (fun _ _ => none) [5]
        [(⟨9, 1, ()⟩ : LogEntry Unit)] []).2 :=
  claim_C10_foreign_tables_ignored.2.1 Unit (fun _ _ => none) [5]
    [⟨9, 1, ()⟩] [] 9 (by decide)

/-! ### `Inner::open_shard` (cluster_impl.rs, lines 260-317) -/

/-- `meta_client::types::ShardInfo`: the shard identity and version carried
by an open-shard request. -/
structure ShardInfo where
  id : Nat
  version : Nat
deriving Repr, DecidableEq

/-- `meta_client::types::TablesOfShard`: the coordinator's answer for one
shard — its (possibly newer) shard info and its member tables. -/
structure TablesOfShard where
  shard_info : ShardInfo
  tables : List Nat
deriving Repr, DecidableEq

/-- Modelled from the spec: `Shard` (its definition, `shard_set.rs`, is not
among the provided sources; spec §3 and §4.4).  A shard wraps the fetched
`TablesOfShard`; `Shard::new` is the anonymous constructor and
`shard.shard_info()` returns the current shard info. -/
structure Shard where
  tables_of_shard : TablesOfShard
deriving Repr, DecidableEq

/-- Modelled from the spec: `shard.shard_info()`. -/
def Shard.shard_info (s : Shard) : ShardInfo := s.tables_of_shard.shard_info

/-- Modelled from the spec: `ShardSet` (spec §4.4), a map
`shard_id → Shard`, as an association list. -/
abbrev ShardSet := List (Nat × Shard)

/-- Modelled from the spec: `ShardSet::get`. -/
def shardSetGet (s : ShardSet) (id : Nat) : Option Shard :=
  match s with
  | [] => none
  | (k, sh) :: rest => if k = id then some sh else shardSetGet rest id

/-- Modelled from the spec: `ShardSet::insert` — overwrite semantics. -/
def shardSetInsert (s : ShardSet) (id : Nat) (sh : Shard) : ShardSet :=
  match s with
  | [] => [(id, sh)]
  | (k, sh') :: rest =>
    if k = id then (id, sh) :: rest else (k, sh') :: shardSetInsert rest id sh

/-- Lookup in the coordinator's `tables_by_shard` response map
(`resp.tables_by_shard.remove(&shard_info.id)` reads this entry). -/
def tablesForShard (m : List (Nat × TablesOfShard)) (k : Nat) :
    Option TablesOfShard :=
  match m with
  | [] => none
  | (k', tos) :: rest => if k' = k then some tos else tablesForShard rest k

/-- The fetch-and-insert path of `Inner::open_shard` (lines 279-316), taken
when the shard is absent from the set or the present version is older:
fetch the shard's tables from the coordinator, require exactly one entry,
extract the entry of the requested id, and insert the new shard
(overwriting any displaced one, line 311). -/
def open_shard_fetch
    (meta_get_tables : List Nat → Except String (List (Nat × TablesOfShard)))
    (shard_set : ShardSet) (shard_info : ShardInfo) :
    Except ClusterError Shard × ShardSet :=
  match meta_get_tables [shard_info.id] with
  | .error _ =>
    (.error (.openShardWithCause "failed to get tables of shards"), shard_set)
  | .ok tables_by_shard =>
    if tables_by_shard.length ≠ 1 then
      (.error (.openShard shard_info.id "expect only one shard tables"), shard_set)
    else
      match tablesForShard tables_by_shard shard_info.id with
      | none =>
        (.error (.openShard shard_info.id "shard tables are missing from the response"),
         shard_set)
      | some tables_of_shard =>
        let shard_id := tables_of_shard.shard_info.id
        let shard : Shard := ⟨tables_of_shard⟩
        (.ok shard, shardSetInsert shard_set shard_id shard)

/-- `Inner::open_shard` (lines 260-317): an identical version short-circuits
to the present shard; a present newer version fails the
`cur_shard_info.version < shard_info.version` check with `OpenShard`;
otherwise the shard is fetched and inserted. -/
def open_shard
    (meta_get_tables : List Nat → Except String (List (Nat × TablesOfShard)))
    (shard_set : ShardSet) (shard_info : ShardInfo) :
    Except ClusterError Shard × ShardSet :=
  match shardSetGet shard_set shard_info.id with
  | some shard =>
    if shard.shard_info.version = shard_info.version then
      (.ok shard, shard_set)
    else if shard.shard_info.version < shard_info.version then
      open_shard_fetch meta_get_tables shard_set shard_info
    else
      (.error (.openShard shard_info.id "open a shard with a smaller version"),
       shard_set)
  | none => open_shard_fetch meta_get_tables shard_set shard_info

theorem shardSetGet_insert_self (s : ShardSet) (id : Nat) (sh : Shard) :
    shardSetGet (shardSetInsert s id sh) id = some sh := by
  induction s with
  | nil => simp [shardSetInsert, shardSetGet]
  | cons hd rest ih =>
    obtain ⟨k, sh'⟩ := hd
    by_cases hk : k = id
    · simp [shardSetInsert, shardSetGet, hk]
    · simp [shardSetInsert, shardSetGet, hk, ih]

/-- Claim C7: `open_shard` is idempotent on an identical `(id, version)` —
it returns the already-present shard and leaves the set unchanged; when the
present shard is older, the new shard is fetched from the coordinator and
replaces it; when the present shard is newer, `open_shard` fails with an
`OpenShard` error and the set is unchanged. -/
theorem claim_C7_open_shard :
    -- (a) identical (id, version): the present shard is returned as-is.
    (∀ (meta_get_tables : List Nat → Except String (List (Nat × TablesOfShard)))
        (shard_set : ShardSet) (info : ShardInfo) (s : Shard),
        shardSetGet shard_set info.id = some s →
        s.shard_info.version = info.version →
        open_shard meta_get_tables shard_set info = (.ok s, shard_set))
    -- (b) a present newer version: OpenShard error, set unchanged.
    ∧ (∀ (meta_get_tables : List Nat → Except String (List (Nat × TablesOfShard)))
        (shard_set : ShardSet) (info : ShardInfo) (s : Shard),
        shardSetGet shard_set info.id = some s →
        info.version < s.shard_info.version →
        ∃ msg, open_shard meta_get_tables shard_set info =
          (.error (.openShard info.id msg), shard_set))
    -- (c) a present older version: the fetched shard replaces it.
    ∧ (∀ (meta_get_tables : List Nat → Except String (List (Nat × TablesOfShard)))
        (shard_set : ShardSet) (info : ShardInfo) (s : Shard)
        (tos : TablesOfShard),
        shardSetGet shard_set info.id = some s →
        s.shard_info.version < info.version →
        meta_get_tables [info.id] = .ok [(info.id, tos)] →
        tos.shard_info.id = info.id →
        open_shard meta_get_tables shard_set info =
          (.ok ⟨tos⟩, shardSetInsert shard_set info.id ⟨tos⟩)
        ∧ shardSetGet (shardSetInsert shard_set info.id ⟨tos⟩) info.id
            = some ⟨tos⟩) := by
  refine ⟨?_, ?_, ?_⟩
  · intro meta_get_tables shard_set info s hget hver
    simp [open_shard, hget, hver]
  · intro meta_get_tables shard_set info s hget hver
    refine ⟨"open a shard with a smaller version", ?_⟩
    have hne : s.shard_info.version ≠ info.version := by omega
    have hnlt : ¬ s.shard_info.version < info.version := by omega
    simp [open_shard, hget, hne, hnlt]
  · intro meta_get_tables shard_set info s tos hget hver hmeta hid
    have hne : s.shard_info.version ≠ info.version := by omega
    constructor
    · simp only [open_shard, hget, if_neg hne, if_pos hver]
      rw [open_shard_fetch, hmeta]
      simp [tablesForShard, hid]
    · exact shardSetGet_insert_self shard_set info.id ⟨tos⟩

/-- Witness for claim C7: the idempotent part applied to a concrete set
holding shard 3 at version 7. -/
theorem claim_C7_witness :
    open_shard (fun _ => .error "unreachable")
        [(3, ⟨⟨⟨3, 7⟩, [10, 11]⟩⟩)] ⟨3, 7⟩ =
      (.ok ⟨⟨⟨3, 7⟩, [10, 11]⟩⟩, [(3, ⟨⟨⟨3, 7⟩, [10, 11]⟩⟩)]) :=
  claim_C7_open_shard.1 (fun _ => .error "unreachable")
    [(3, ⟨⟨⟨3, 7⟩, [10, 11]⟩⟩)] ⟨3, 7⟩ ⟨⟨⟨3, 7⟩, [10, 11]⟩⟩
    (by decide) (by decide)

end HoraeDB
